import Mathlib

/-!
Shallow embedding of `src/main.py` (apicar): the Ouedkniss listing-acquisition
pipeline (`get_cars`), the price helpers (`parse_price_to_int`,
`extract_price_gemini`, `scroll_to_bottom`), and the `/search` handler.

Modelling conventions:
* Python strings are Lean `String`s; only ASCII digits and ASCII whitespace
  occur in the inputs of interest, so `Char.isDigit` models `str.isdigit`
  per character and `\x20 \t \n \r \x0b \x0c` model `str.strip`'s whitespace.
* Browser interaction is abstracted as data the page produces: a `Card` is
  the six per-field extraction results of one listing card (a `none` field
  models a per-field lookup failure, lines 162-194), a `PageEvent` is what
  one visited page yields (its cards plus the state of the next-page
  control, or a card-wait timeout), and document heights during scrolling
  are a stream `Nat → Nat` of successive height reads.
* Python exceptions that escape a function are `Except.error`; swallowed
  exceptions are encoded by the `Option`/branch structure of the model.
-/

namespace Apicar

/-- Python `s.replace(" ", "")` (main.py lines 102, 198): remove every space
character. -/
def removeSpaces (s : String) : String := ⟨s.data.filter (fun c => !(c == ' '))⟩

/-- Python `s.isdigit()` restricted to ASCII (main.py line 199): non-empty and
every character a digit. -/
def pyIsdigit (s : String) : Bool := !s.data.isEmpty && s.data.all Char.isDigit

/-- Whitespace characters removed by Python `str.strip()`. -/
def isPyWS (c : Char) : Bool :=
  c == ' ' || c == '\t' || c == '\n' || c == '\r' || c == '\x0b' || c == '\x0c'

/-- Characters that are not ASCII digits (the complement of `\d` in the
regexes of main.py lines 61 and 102). -/
def notDigit (c : Char) : Bool := !c.isDigit

/-- Strip leading and trailing Python whitespace from a character list. -/
def stripL (l : List Char) : List Char :=
  ((l.dropWhile isPyWS).reverse.dropWhile isPyWS).reverse

/-- Python `s.strip()` (main.py line 55). -/
def pyStrip (s : String) : String := ⟨stripL s.data⟩

/-- Python `s.upper()` for ASCII (main.py line 56). -/
def pyUpper (s : String) : String := ⟨s.data.map Char.toUpper⟩

/-- Value of a run of ASCII digit characters, as Python `int(...)` computes it
on a digit string. -/
def digitsValL (l : List Char) : Nat :=
  l.foldl (fun a c => a * 10 + (c.toNat - 48)) 0

/-- Value of a digit string. -/
def digitsVal (s : String) : Nat := digitsValL s.data

/-- Python `re.search(r"\d+", ...)` (main.py lines 61, 102): the first maximal
contiguous run of digits of a character list, if any. -/
def firstDigitRunL (l : List Char) : Option (List Char) :=
  match l.dropWhile notDigit with
  | [] => none
  | c :: cs => some ((c :: cs).takeWhile Char.isDigit)

/-- Does the string contain any ASCII digit. -/
def hasDigit (s : String) : Bool := s.data.any Char.isDigit

/-- main.py lines 99-103, `parse_price_to_int`: `None` on falsy (empty) input,
else the first digit run of the space-stripped text as an int, else `None`.
(This helper is defined in the source but never called by `get_cars`.) -/
def parse_price_to_int (price_text : String) : Option Int :=
  if price_text = "" then none
  else
    match firstDigitRunL (removeSpaces price_text).data with
    | none => none
    | some ds => some (Int.ofNat (digitsValL ds))

/-- main.py lines 39-63, `extract_price_gemini`. The external Gemini call is
abstracted as its outcome: `Except.error ()` when `generate_content` (or
reading `response.text`) raises, `Except.ok text` when it returns `text`.
The body strips the response, compares its uppercasing with `"NULL"`, and
otherwise takes the first digit run; `re.search` returning `None` makes
`.group()` raise `AttributeError`, which the enclosing `except` turns into
`None`, as it does every other exception. -/
def extract_price_gemini (resp : Except Unit String) : Option Int :=
  match resp with
  | Except.error _ => none
  | Except.ok text =>
    let result := pyStrip text
    if pyUpper result = "NULL" then none
    else
      match firstDigitRunL result.data with
      | none => none
      | some ds => some (Int.ofNat (digitsValL ds))

/-!
Scroll loops. A height stream `h : Nat → Nat` gives the successive values of
`document.body.scrollHeight`: `h 0` is the read before the loop, `h i` the
read after the i-th scroll-and-pause.
-/

/-- Loop body shared shape of main.py lines 150-157 (the in-pipeline
`while True` scroll loop of `get_cars`), run with explicit fuel since the
source loop has no iteration bound: `some i` means the loop exited after the
i-th read found the height unchanged; `none` means `fuel` iterations ran
without the exit condition holding. -/
def scroll_go (h : Nat → Nat) : Nat → Nat → Nat → Option Nat
  | 0, _, _ => none
  | fuel + 1, last, i =>
    if h i = last then some i else scroll_go h fuel (h i) (i + 1)

/-- main.py lines 150-157: the per-page scroll loop of `get_cars`, observed
through `fuel` iterations. -/
def scroll_loop (h : Nat → Nat) (fuel : Nat) : Option Nat :=
  scroll_go h fuel (h 0) 1

/-- Iteration counter for main.py lines 85-96, `scroll_to_bottom`: the number
of scroll-and-read iterations the helper executes on height stream `h` with
budget `budget` remaining (`loops < max_loops` is checked before each body). -/
def stb_count (h : Nat → Nat) : Nat → Nat → Nat → Nat
  | 0, _, _ => 0
  | budget + 1, last, i =>
    if h i = last then 1 else 1 + stb_count h budget (h i) (i + 1)

/-- main.py lines 85-96, `scroll_to_bottom` (default `max_loops = 15`):
number of iterations it performs. (Also defined in the source but never
called by `get_cars`.) -/
def scroll_to_bottom (h : Nat → Nat) (max_loops : Nat) : Nat :=
  stb_count h max_loops (h 0) 1

/-!
Card extraction and the per-page data accumulator of `get_cars`.
-/

/-- One rendered listing card, as the six per-field extraction attempts of
main.py lines 162-194 see it: each field is `none` when its scoped selector
lookup (or text read) failed for that card. -/
structure Card where
  name : Option String
  price_txt : Option String
  location : Option String
  date_txt : Option String
  url : Option String
  image : Option String
deriving DecidableEq, Repr

/-- The `data` accumulator of main.py lines 126-133: six parallel lists, one
per column; `price` holds `int`s only (line 200 converts before appending). -/
structure ScrapeData where
  name : List (Option String)
  price : List Int
  location : List (Option String)
  date : List (Option String)
  url : List (Option String)
  image : List (Option String)
deriving DecidableEq, Repr

/-- The empty `data` dict of main.py lines 126-133. -/
def emptyData : ScrapeData :=
  { name := [], price := [], location := [], date := [], url := [], image := [] }

/-- main.py lines 196-200: the "validate & clean price" step. `None` or empty
price text is falsy and skipped; otherwise spaces are removed and the result
is accepted as an int only when it consists entirely of digits
(`price_num.isdigit()`). -/
def clean_price (price_txt : Option String) : Option Int :=
  match price_txt with
  | none => none
  | some s =>
    if s = "" then none
    else
      if pyIsdigit (removeSpaces s) then some (Int.ofNat (digitsVal (removeSpaces s)))
      else none

/-- main.py lines 196-201: the full acceptance test for one card: a cleaned
integer price that is not a sentinel (`price_num not in (111, 123)`) and lies
in the inclusive band (`minprice <= price_num <= maxprice`). -/
def card_accept (minp maxp : Int) (c : Card) : Option Int :=
  match clean_price c.price_txt with
  | none => none
  | some n =>
    if n ≠ 111 ∧ n ≠ 123 ∧ minp ≤ n ∧ n ≤ maxp then some n else none

/-- main.py lines 201-207: when a card is accepted, one element is appended to
each of the six lists; otherwise `data` is unchanged. -/
def append_card (minp maxp : Int) (d : ScrapeData) (c : Card) : ScrapeData :=
  match card_accept minp maxp c with
  | none => d
  | some n =>
    { name := d.name ++ [c.name]
      price := d.price ++ [n]
      location := d.location ++ [c.location]
      date := d.date ++ [c.date_txt]
      url := d.url ++ [c.url]
      image := d.image ++ [c.image] }

/-- main.py lines 162-207: the per-page `for car in cars` extraction loop. -/
def extract_cards (minp maxp : Int) (d : ScrapeData) (cards : List Card) : ScrapeData :=
  cards.foldl (append_card minp maxp) d

/-!
Pagination. A `PageEvent` is what one visited page yields.
-/

/-- State of the `button[aria-label='Page suivante']` control on a page:
present and enabled, present but disabled, or not found (the
`find_element` raises, caught by the bare `except`). -/
inductive NextCtl where
  | enabled
  | disabled
  | missing
deriving DecidableEq, Repr

/-- What one visited page yields: either the 20-second card wait of main.py
lines 145-147 times out (raising `TimeoutException`), or cards render and the
page carries a next-page control state. -/
inductive PageEvent where
  | timeout
  | page (cards : List Card) (next : NextCtl)
deriving DecidableEq, Repr

/-- main.py lines 143-221: the `for p in range(pages)` loop of `get_cars`.
The trace lists one `PageEvent` per page the browser shows (an exhausted
trace behaves as a page whose cards never appear). `get_cars` has
`try/finally` with no `except` around this loop (lines 135-223), so a
card-wait timeout on ANY page propagates out of the function after
`driver.quit()`, and the collected `data` is lost: this is `Except.error ()`.
A missing or disabled next-page control breaks out of the loop and the
function returns the `data` collected so far. The scroll step (lines
150-157) is modelled separately by `scroll_loop`; here a visited page is
taken as fully scrolled. -/
def scrape_pages (minp maxp : Int) : Nat → List PageEvent → ScrapeData → Except Unit ScrapeData
  | 0, _, d => Except.ok d
  | _ + 1, [], _ => Except.error ()
  | _ + 1, PageEvent.timeout :: _, _ => Except.error ()
  | k + 1, PageEvent.page cards nxt :: rest, d =>
    match k, nxt with
    | 0, _ => Except.ok (extract_cards minp maxp d cards)
    | j + 1, NextCtl.enabled => scrape_pages minp maxp (j + 1) rest (extract_cards minp maxp d cards)
    | _ + 1, NextCtl.disabled => Except.ok (extract_cards minp maxp d cards)
    | _ + 1, NextCtl.missing => Except.ok (extract_cards minp maxp d cards)

/-!
The `/search` handler (main.py lines 260-306).
-/

/-- main.py lines 260-266: the pydantic request model with its declared
defaults (`message=""`, `margin=20`, `pages=5`, `minprice=None`,
`maxprice=None`, `start_page=1`). -/
structure SearchRequest where
  message : String := ""
  margin : Int := 20
  pages : Nat := 5
  minprice : Option Int := none
  maxprice : Option Int := none
  start_page : Nat := 1
deriving DecidableEq, Repr

/-- A request built from a JSON body that supplies only `message`,
`minprice` and `maxprice`: every omitted field takes its pydantic default. -/
def mkRequest (message : String) (minprice maxprice : Option Int) : SearchRequest :=
  { message := message, minprice := minprice, maxprice := maxprice }

/-- main.py lines 286-290: the `extract_price_gemini(message)` branch of
`search`. `None` from the extractor raises `HTTPException(400)`
(`Except.error ()` here); otherwise both bounds are overwritten with
`price ± margin`. -/
def resolve_from_message (req : SearchRequest) (gemini : String → Except Unit String) :
    Except Unit (Int × Int) :=
  match extract_price_gemini (gemini req.message) with
  | none => Except.error ()
  | some price => Except.ok (price - req.margin, price + req.margin)

/-- main.py lines 285-293: the band-resolution step of `search`. `gemini`
abstracts the external model: the response text of `generate_content` for a
given message, or the exception it raises. The explicit band is used exactly
when BOTH bounds are present (`if minprice is None or maxprice is None`);
otherwise the message is delegated to the extractor. -/
def resolve_band (req : SearchRequest) (gemini : String → Except Unit String) :
    Except Unit (Int × Int) :=
  match req.minprice, req.maxprice with
  | some mn, some mx => Except.ok (mn, mx)
  | _, _ => resolve_from_message req gemini

/-- One column of the `data` dict (string columns vs the int `price`
column). -/
inductive Col where
  | strs : List (Option String) → Col
  | ints : List Int → Col
deriving DecidableEq, Repr

/-- The `data` dict returned by `get_cars` (main.py lines 126-133, 227), as
the association list of its six keys. Python `len()` of this dict is the
number of keys. -/
def data_dict (d : ScrapeData) : List (String × Col) :=
  [("name", Col.strs d.name), ("price", Col.ints d.price),
   ("location", Col.strs d.location), ("date", Col.strs d.date),
   ("url", Col.strs d.url), ("image", Col.strs d.image)]

/-- Failure modes of the `/search` endpoint: the 400 raised when no price can
be determined, or an uncaught exception escaping `get_cars` (a 500 at the
framework boundary). -/
inductive SearchError where
  | badRequest
  | scrapeFailed
deriving DecidableEq, Repr

/-- The JSON body returned by `search` (main.py lines 297-306): the echoed
query band and page count, `count` (Python `len(results)` where `results` is
the `data` dict), and the results themselves. -/
structure SearchResponse where
  qmin : Int
  qmax : Int
  qpages : Nat
  count : Nat
  results : ScrapeData
deriving DecidableEq, Repr

/-- main.py lines 276-306, the `search` handler. Line 280 hardcodes
`pages = 5` (the `req.pages` field is never read). The band is resolved,
`get_cars` runs over the page trace, and the response is assembled with
`count = len(results)` where `results` is the returned dict. -/
def search (req : SearchRequest) (gemini : String → Except Unit String)
    (trace : List PageEvent) : Except SearchError SearchResponse :=
  let pages : Nat := 5
  match resolve_band req gemini with
  | Except.error _ => Except.error SearchError.badRequest
  | Except.ok (minp, maxp) =>
    match scrape_pages minp maxp pages trace emptyData with
    | Except.error _ => Except.error SearchError.scrapeFailed
    | Except.ok d =>
      Except.ok { qmin := minp, qmax := maxp, qpages := pages,
                  count := (data_dict d).length, results := d }

/-- Observation of a `search` outcome: `(count, qpages, price column)` on
success. -/
def resultView (r : Except SearchError SearchResponse) : Option (Nat × Nat × List Int) :=
  match r with
  | Except.error _ => none
  | Except.ok x => some (x.count, x.qpages, x.results.price)

/-- A card whose only extracted field is its price text; used as concrete
test input. -/
def cardWithPrice (s : String) : Card :=
  { name := none, price_txt := some s, location := none, date_txt := none,
    url := none, image := none }

/-- Parallel-lists invariant of the `data` accumulator: all six column lists
have equal length. -/
def balanced (d : ScrapeData) : Prop :=
  d.name.length = d.price.length ∧ d.location.length = d.price.length ∧
  d.date.length = d.price.length ∧ d.url.length = d.price.length ∧
  d.image.length = d.price.length

/-- Concrete request: explicit band, `pages := 2` supplied by the caller. -/
def reqC6 : SearchRequest := { pages := 2, minprice := some 0, maxprice := some 1000 }

/-- Concrete site trace of five pages, one in-band card each, next-page
control enabled until the last page. -/
def traceC6 : List PageEvent :=
  [PageEvent.page [cardWithPrice "10"] NextCtl.enabled,
   PageEvent.page [cardWithPrice "20"] NextCtl.enabled,
   PageEvent.page [cardWithPrice "30"] NextCtl.enabled,
   PageEvent.page [cardWithPrice "40"] NextCtl.enabled,
   PageEvent.page [cardWithPrice "50"] NextCtl.disabled]

/-!
## Helper lemmas
-/

/-- On a strictly growing height stream the pipeline scroll loop never exits,
whatever the fuel. -/
theorem scroll_go_id_none : ∀ (fuel i : Nat), scroll_go (fun n => n) fuel i (i + 1) = none := by
  intro fuel
  induction fuel with
  | zero => intro i; rfl
  | succ f ih =>
    intro i
    have hne : ¬((fun n => n) (i + 1) = i) := by simp
    simp only [scroll_go, if_neg hne]
    exact ih (i + 1)

/-- The pipeline scroll loop exits within the given fuel iff two consecutive
height reads agree within the fuel window. -/
theorem scroll_go_isSome (h : Nat → Nat) :
    ∀ (fuel i : Nat), (scroll_go h fuel (h i) (i + 1)).isSome = true ↔
      ∃ j, j < fuel ∧ h (i + 1 + j) = h (i + j) := by
  intro fuel
  induction fuel with
  | zero => intro i; simp [scroll_go]
  | succ f ih =>
    intro i
    by_cases hc : h (i + 1) = h i
    · simp only [scroll_go, if_pos hc, Option.isSome_some, true_iff]
      exact ⟨0, Nat.succ_pos f, by simpa using hc⟩
    · have hred : scroll_go h (f + 1) (h i) (i + 1) = scroll_go h f (h (i + 1)) (i + 1 + 1) := by
        simp only [scroll_go, if_neg hc]
      rw [hred, ih (i + 1)]
      constructor
      · rintro ⟨j, hj, he⟩
        refine ⟨j + 1, by omega, ?_⟩
        have e1 : i + 1 + (j + 1) = i + 1 + 1 + j := by omega
        have e2 : i + (j + 1) = i + 1 + j := by omega
        rw [e1, e2]; exact he
      · rintro ⟨j, hj, he⟩
        cases j with
        | zero => exact absurd (by simpa using he) hc
        | succ j' =>
          refine ⟨j', by omega, ?_⟩
          have e1 : i + 1 + 1 + j' = i + 1 + (j' + 1) := by omega
          have e2 : i + 1 + j' = i + (j' + 1) := by omega
          rw [e1, e2]; exact he

/-- The helper `scroll_to_bottom` runs at most its budget of iterations. -/
theorem stb_count_le (h : Nat → Nat) : ∀ (b last i : Nat), stb_count h b last i ≤ b := by
  intro b
  induction b with
  | zero => intro last i; simp [stb_count]
  | succ b ih =>
    intro last i
    by_cases hc : h i = last
    · simp [stb_count, hc]
    · have := ih (h i) (i + 1)
      simp only [stb_count, if_neg hc]
      omega

/-- Python whitespace characters are not digits. -/
theorem ws_not_digit : ∀ c : Char, isPyWS c = true → c.isDigit = false := by
  intro c h
  simp only [isPyWS, Bool.or_eq_true, beq_iff_eq] at h
  rcases h with ((((h | h) | h) | h) | h) | h <;> subst h <;> decide

/-- How `dropWhile` acts on an append. -/
theorem dropWhile_append_split {α : Type} (p : α → Bool) :
    ∀ a b : List α, (a ++ b).dropWhile p =
      if (a.dropWhile p).isEmpty then b.dropWhile p else a.dropWhile p ++ b := by
  intro a
  induction a with
  | nil => intro b; simp
  | cons c a ih =>
    intro b
    by_cases hc : p c
    · simp only [List.cons_append, List.dropWhile_cons, hc, if_true, ih b]
    · simp [List.dropWhile_cons, hc]

/-- Appending a block the predicate rejects at its head does not change a
`takeWhile`. -/
theorem takeWhile_append_right_nil {α : Type} (p : α → Bool) :
    ∀ (a b : List α), b.takeWhile p = [] → (a ++ b).takeWhile p = a.takeWhile p := by
  intro a
  induction a with
  | nil => intro b hb; simpa using hb
  | cons c a ih =>
    intro b hb
    by_cases hc : p c
    · simp [List.takeWhile_cons, hc, ih b hb]
    · simp [List.takeWhile_cons, hc]

/-- A run of whitespace contributes nothing to a digit `takeWhile`. -/
theorem takeWhile_isDigit_of_ws (w : List Char) (hw : ∀ c ∈ w, isPyWS c = true) :
    w.takeWhile Char.isDigit = [] := by
  cases w with
  | nil => rfl
  | cons c w =>
    have := ws_not_digit c (hw c (by simp))
    simp [List.takeWhile_cons, this]

/-- A run of whitespace is consumed whole by `dropWhile notDigit`. -/
theorem dropWhile_notDigit_of_ws (w : List Char) (hw : ∀ c ∈ w, isPyWS c = true) :
    w.dropWhile notDigit = [] := by
  rw [List.dropWhile_eq_nil_iff]
  intro x hx
  simp [notDigit, ws_not_digit x (hw x hx)]

/-- Unfolding of `firstDigitRunL` on an empty `dropWhile`. -/
theorem firstDigitRunL_of_dropWhile_nil {l : List Char}
    (h : l.dropWhile notDigit = []) : firstDigitRunL l = none := by
  unfold firstDigitRunL
  rw [h]

/-- Unfolding of `firstDigitRunL` on a non-empty `dropWhile`. -/
theorem firstDigitRunL_of_dropWhile_cons {l : List Char} {c : Char} {cs : List Char}
    (h : l.dropWhile notDigit = c :: cs) :
    firstDigitRunL l = some ((c :: cs).takeWhile Char.isDigit) := by
  unfold firstDigitRunL
  rw [h]

/-- Leading whitespace does not affect the first digit run. -/
theorem firstDigitRunL_ws_append (w m : List Char) (hw : ∀ c ∈ w, isPyWS c = true) :
    firstDigitRunL (w ++ m) = firstDigitRunL m := by
  have hsplit := dropWhile_append_split notDigit w m
  rw [dropWhile_notDigit_of_ws w hw] at hsplit
  simp only [List.isEmpty_nil, if_true] at hsplit
  cases hd : m.dropWhile notDigit with
  | nil =>
    rw [firstDigitRunL_of_dropWhile_nil (hsplit.trans hd), firstDigitRunL_of_dropWhile_nil hd]
  | cons c cs =>
    rw [firstDigitRunL_of_dropWhile_cons (hsplit.trans hd), firstDigitRunL_of_dropWhile_cons hd]

/-- Trailing whitespace does not affect the first digit run. -/
theorem firstDigitRunL_append_ws (m w : List Char) (hw : ∀ c ∈ w, isPyWS c = true) :
    firstDigitRunL (m ++ w) = firstDigitRunL m := by
  have hsplit := dropWhile_append_split notDigit m w
  cases hd : m.dropWhile notDigit with
  | nil =>
    rw [hd] at hsplit
    simp only [List.isEmpty_nil, if_true] at hsplit
    rw [firstDigitRunL_of_dropWhile_nil (hsplit.trans (dropWhile_notDigit_of_ws w hw)),
        firstDigitRunL_of_dropWhile_nil hd]
  | cons c cs =>
    rw [hd] at hsplit
    simp only [List.isEmpty_cons, if_false, Bool.false_eq_true] at hsplit
    have hcons : (m ++ w).dropWhile notDigit = c :: (cs ++ w) := by
      rw [hsplit, List.cons_append]
    rw [firstDigitRunL_of_dropWhile_cons hcons, firstDigitRunL_of_dropWhile_cons hd]
    have hta := takeWhile_append_right_nil Char.isDigit (c :: cs) w
      (takeWhile_isDigit_of_ws w hw)
    rw [← List.cons_append, hta]

/-- Splitting a list into its stripped core and the whitespace around it. -/
theorem strip_decomp (l : List Char) :
    ∃ w₁ w₂, (∀ c ∈ w₁, isPyWS c = true) ∧ (∀ c ∈ w₂, isPyWS c = true) ∧
      l = w₁ ++ (stripL l ++ w₂) := by
  refine ⟨l.takeWhile isPyWS, ((l.dropWhile isPyWS).reverse.takeWhile isPyWS).reverse,
    ?_, ?_, ?_⟩
  · intro c hc; exact List.mem_takeWhile_imp hc
  · intro c hc
    rw [List.mem_reverse] at hc
    exact List.mem_takeWhile_imp hc
  · conv_lhs => rw [← List.takeWhile_append_dropWhile isPyWS l]
    congr 1
    unfold stripL
    conv_lhs => rw [← List.reverse_reverse (l.dropWhile isPyWS),
      ← List.takeWhile_append_dropWhile isPyWS (l.dropWhile isPyWS).reverse,
      List.reverse_append]

/-- Python `strip` does not change the first digit run of a string. -/
theorem firstDigitRunL_stripL (l : List Char) :
    firstDigitRunL (stripL l) = firstDigitRunL l := by
  obtain ⟨w₁, w₂, h₁, h₂, hdecomp⟩ := strip_decomp l
  conv_rhs => rw [hdecomp]
  rw [firstDigitRunL_ws_append w₁ _ h₁, firstDigitRunL_append_ws _ w₂ h₂]

/-- The first digit run is absent exactly when the list holds no digit. -/
theorem firstDigitRunL_eq_none_iff (l : List Char) :
    firstDigitRunL l = none ↔ l.any Char.isDigit = false := by
  have h1 : firstDigitRunL l = none ↔ l.dropWhile notDigit = [] := by
    cases hd : l.dropWhile notDigit with
    | nil => simp [firstDigitRunL_of_dropWhile_nil hd]
    | cons c cs => simp [firstDigitRunL_of_dropWhile_cons hd]
  rw [h1, List.dropWhile_eq_nil_iff]
  constructor
  · intro hall
    rw [List.any_eq_false]
    intro x hx
    have := hall x hx
    simp [notDigit] at this
    simp [this]
  · intro hany x hx
    rw [List.any_eq_false] at hany
    have := hany x hx
    simp [notDigit]
    simpa using this

/-- An accepted card's price is no sentinel and lies in the inclusive band. -/
theorem card_accept_spec {minp maxp : Int} {c : Card} {n : Int}
    (h : card_accept minp maxp c = some n) :
    n ≠ 111 ∧ n ≠ 123 ∧ minp ≤ n ∧ n ≤ maxp := by
  unfold card_accept at h
  split at h
  · cases h
  · split at h
    · rename_i hcond
      injection h with h'
      subst h'
      exact hcond
    · cases h

/-- Any property preserved by `append_card` is preserved by a page's whole
extraction loop. -/
theorem extract_cards_preserves (minp maxp : Int) (Q : ScrapeData → Prop)
    (hstep : ∀ d c, Q d → Q (append_card minp maxp d c)) :
    ∀ (cards : List Card) (d : ScrapeData), Q d → Q (extract_cards minp maxp d cards) := by
  intro cards
  induction cards with
  | nil => intro d hd; exact hd
  | cons c cs ih =>
    intro d hd
    show Q (extract_cards minp maxp (append_card minp maxp d c) cs)
    exact ih (append_card minp maxp d c) (hstep d c hd)

/-- Any property preserved by `append_card` holds of every successful
`scrape_pages` result, whatever the trace and page budget. -/
theorem scrape_preserves (minp maxp : Int) (Q : ScrapeData → Prop)
    (hstep : ∀ d c, Q d → Q (append_card minp maxp d c)) :
    ∀ (pages : Nat) (trace : List PageEvent) (d r : ScrapeData),
      Q d → scrape_pages minp maxp pages trace d = Except.ok r → Q r := by
  intro pages
  induction pages with
  | zero =>
    intro trace d r hd hok
    simp only [scrape_pages, Except.ok.injEq] at hok
    exact hok ▸ hd
  | succ k ih =>
    intro trace d r hd hok
    cases trace with
    | nil => simp [scrape_pages] at hok
    | cons ev rest =>
      cases ev with
      | timeout => simp [scrape_pages] at hok
      | page cards nxt =>
        have hq := extract_cards_preserves minp maxp Q hstep cards d hd
        cases k with
        | zero =>
          simp only [scrape_pages, Except.ok.injEq] at hok
          exact hok ▸ hq
        | succ j =>
          cases nxt with
          | enabled =>
            exact ih rest (extract_cards minp maxp d cards) r hq hok
          | disabled =>
            simp only [scrape_pages, Except.ok.injEq] at hok
            exact hok ▸ hq
          | missing =>
            simp only [scrape_pages, Except.ok.injEq] at hok
            exact hok ▸ hq

/-- `append_card` preserves band membership of the price column. -/
theorem append_card_band (minp maxp : Int) (d : ScrapeData) (c : Card)
    (hd : ∀ p ∈ d.price, minp ≤ p ∧ p ≤ maxp) :
    ∀ p ∈ (append_card minp maxp d c).price, minp ≤ p ∧ p ≤ maxp := by
  unfold append_card
  cases hacc : card_accept minp maxp c with
  | none => exact hd
  | some n =>
    intro p hp
    simp only [List.mem_append, List.mem_singleton] at hp
    rcases hp with hp | rfl
    · exact hd p hp
    · have hs := card_accept_spec hacc
      exact ⟨hs.2.2.1, hs.2.2.2⟩

/-- `append_card` preserves the parallel-lists invariant. -/
theorem append_card_balanced (minp maxp : Int) (d : ScrapeData) (c : Card)
    (hd : balanced d) : balanced (append_card minp maxp d c) := by
  obtain ⟨h1, h2, h3, h4, h5⟩ := hd
  unfold append_card
  cases card_accept minp maxp c with
  | none => exact ⟨h1, h2, h3, h4, h5⟩
  | some n =>
    refine ⟨?_, ?_, ?_, ?_, ?_⟩ <;>
      simp [List.length_append, h1, h2, h3, h4, h5]

/-- When a card is accepted, `append_card` grows every column by one. -/
theorem append_card_lengths (minp maxp : Int) (d : ScrapeData) (c : Card)
    (h : card_accept minp maxp c ≠ none) :
    (append_card minp maxp d c).name.length = d.name.length + 1 ∧
    (append_card minp maxp d c).price.length = d.price.length + 1 ∧
    (append_card minp maxp d c).location.length = d.location.length + 1 ∧
    (append_card minp maxp d c).date.length = d.date.length + 1 ∧
    (append_card minp maxp d c).url.length = d.url.length + 1 ∧
    (append_card minp maxp d c).image.length = d.image.length + 1 := by
  unfold append_card
  cases hacc : card_accept minp maxp c with
  | none => exact absurd hacc h
  | some n => simp

/-!
## Claim theorems
-/

/-- Claim C1 (code bug): the `count` field of the `/search` response is
`len(results)` where `results` is the dict returned by `get_cars`, so it is
the number of dict keys — always 6 — not the number of listing records. Here
a run collecting exactly one record (price column `[150]`) reports
`count = 6`. -/
theorem C1_count_is_dict_len :
    resultView (search { minprice := some 100, maxprice := some 200 }
        (fun _ => Except.error ())
        [PageEvent.page [cardWithPrice "150"] NextCtl.disabled])
      = some (6, 5, [150]) := by decide

/-- Claim C2 counterexample: the pipeline's price cleaning (main.py lines
197-199) requires the space-stripped text to be ALL digits, so `"250 DA"` is
excluded rather than parsed as 250; the first-digit-run behaviour the claim
describes is that of the helper `parse_price_to_int` (lines 99-103), which
`get_cars` never calls. -/
theorem C2_counterexample :
    clean_price (some "250 DA") = none ∧
    (extract_cards 0 1000 emptyData [cardWithPrice "250 DA"]).price = [] ∧
    parse_price_to_int "250 DA" = some 250 := by decide

/-- Claim C2 (amended): a card's price parses successfully exactly when the
price text is non-empty and, after removing spaces, consists entirely of
digits; the value is then the integer those digits denote. Any other
character in the price text causes exclusion. -/
theorem C2_amended_characterization :
    ∀ (pt : Option String) (n : Int),
      clean_price pt = some n ↔
        ∃ s, pt = some s ∧ s ≠ "" ∧ pyIsdigit (removeSpaces s) = true ∧
          n = Int.ofNat (digitsVal (removeSpaces s)) := by
  intro pt n
  cases pt with
  | none => simp [clean_price]
  | some s =>
    simp only [clean_price, Option.some.injEq]
    by_cases h0 : s = ""
    · subst h0; simp
    · rw [if_neg h0]
      by_cases hd : pyIsdigit (removeSpaces s) = true
      · rw [if_pos hd]
        constructor
        · intro h
          injection h with h'
          exact ⟨s, rfl, h0, hd, h'.symm⟩
        · rintro ⟨s', hs', -, -, hn⟩
          subst hs'
          rw [hn]
      · rw [if_neg hd]
        constructor
        · intro h; cases h
        · rintro ⟨s', hs', -, hd', -⟩
          subst hs'
          exact absurd hd' hd

/-- Claim C2 witness: an all-digit price text parses to its value. -/
theorem C2_amended_witness : clean_price (some "250") = some 250 :=
  (C2_amended_characterization (some "250") 250).mpr
    ⟨"250", rfl, by decide, by decide, by decide⟩

/-- Claim C3 counterexample: `get_cars` wraps its page loop in `try/finally`
with no `except` (main.py lines 135-223), so a card-wait timeout on the
SECOND page propagates out and the record already collected from page one
(price 500, shown in the second conjunct) is lost — the call errors instead
of returning a partial result. -/
theorem C3_counterexample :
    scrape_pages 0 1000 5
        [PageEvent.page [cardWithPrice "500"] NextCtl.enabled, PageEvent.timeout]
        emptyData = Except.error () ∧
    (extract_cards 0 1000 emptyData [cardWithPrice "500"]).price = [500] :=
  ⟨rfl, rfl⟩

/-- Claim C3 (amended): a card-wait timeout on ANY visited page — first or
later — is fatal: the exception propagates and no records are returned. Only
a missing or disabled next-page control ends pagination gracefully with the
records collected so far. -/
theorem C3_amended_failure_semantics :
    (∀ (minp maxp : Int) (k : Nat) (rest : List PageEvent) (d : ScrapeData),
       scrape_pages minp maxp (k + 1) (PageEvent.timeout :: rest) d = Except.error ()) ∧
    (∀ (minp maxp : Int) (j : Nat) (rest : List PageEvent) (d : ScrapeData)
       (cards : List Card),
       scrape_pages minp maxp (j + 2) (PageEvent.page cards NextCtl.disabled :: rest) d
         = Except.ok (extract_cards minp maxp d cards)) ∧
    (∀ (minp maxp : Int) (j : Nat) (rest : List PageEvent) (d : ScrapeData)
       (cards : List Card),
       scrape_pages minp maxp (j + 2) (PageEvent.page cards NextCtl.missing :: rest) d
         = Except.ok (extract_cards minp maxp d cards)) := by
  refine ⟨?_, ?_, ?_⟩ <;> intros <;> rfl

/-- Claim C4 counterexample: the per-page scroll loop of `get_cars` (main.py
lines 150-157) is `while True` with no iteration cap: on a strictly growing
height stream it has not stopped after a million iterations, far beyond any
`maxIterations` (the unused helper's cap is 15). -/
theorem C4_counterexample : scroll_loop (fun n => n) 1000000 = none := by
  have h := scroll_go_id_none 1000000 0
  simpa [scroll_loop] using h

/-- Claim C4 (amended): the pipeline's per-page scroll loop stops as soon as
— and only when — two consecutive height reads agree; it has no iteration
cap of its own. The iteration cap exists only in the separate helper
`scroll_to_bottom` (default 15), which the pipeline never calls. -/
theorem C4_amended_characterization :
    (∀ (h : Nat → Nat) (fuel : Nat),
       (scroll_loop h fuel).isSome = true ↔ ∃ i, i < fuel ∧ h (i + 1) = h i) ∧
    (∀ (h : Nat → Nat) (max_loops : Nat), scroll_to_bottom h max_loops ≤ max_loops) := by
  constructor
  · intro h fuel
    refine (scroll_go_isSome h fuel 0).trans ?_
    constructor
    · rintro ⟨j, hj, he⟩
      refine ⟨j, hj, ?_⟩
      have e1 : 0 + 1 + j = j + 1 := by omega
      have e2 : 0 + j = j := by omega
      rw [e1, e2] at he
      exact he
    · rintro ⟨i, hi, he⟩
      refine ⟨i, hi, ?_⟩
      have e1 : 0 + 1 + i = i + 1 := by omega
      have e2 : 0 + i = i := by omega
      rw [e1, e2]
      exact he
  · intro h ml
    exact stb_count_le h ml (h 0) 1

/-- Claim C4 witness: a constant height stream stops the loop at once, and
the capped helper respects its budget. -/
theorem C4_amended_witness :
    (scroll_loop (fun _ => 0) 3).isSome = true ∧
    scroll_to_bottom (fun _ => 0) 15 ≤ 15 :=
  ⟨(C4_amended_characterization.1 (fun _ => 0) 3).mpr ⟨0, by omega, rfl⟩,
   C4_amended_characterization.2 (fun _ => 0) 15⟩

/-- Claim C5 counterexample: the sentinel denylist in the code is
`(111, 123)` only (main.py line 201) — 1 is NOT in it. A card priced `"1"`
inside the band `[0, 10]` is accepted and emitted, contradicting the claim
that price 1 is always discarded. -/
theorem C5_counterexample :
    card_accept 0 10 (cardWithPrice "1") = some 1 ∧
    (extract_cards 0 10 emptyData [cardWithPrice "1"]).price = [1] := by decide

/-- Claim C5 (amended): every record whose parsed price is exactly 111 or
123 is discarded regardless of the band; 1 is not a sentinel and is treated
as an ordinary price. -/
theorem C5_amended_sentinels :
    (∀ (minp maxp : Int) (c : Card) (n : Int),
       card_accept minp maxp c = some n → n ≠ 111 ∧ n ≠ 123) ∧
    (∀ (minp maxp : Int) (c : Card),
       c.price_txt = some "111" → card_accept minp maxp c = none) ∧
    (∀ (minp maxp : Int) (c : Card),
       c.price_txt = some "123" → card_accept minp maxp c = none) := by
  refine ⟨?_, ?_, ?_⟩
  · intro minp maxp c n h
    have hs := card_accept_spec h
    exact ⟨hs.1, hs.2.1⟩
  · intro minp maxp c h
    unfold card_accept
    rw [h, show clean_price (some "111") = some 111 from by decide]
    simp
  · intro minp maxp c h
    unfold card_accept
    rw [h, show clean_price (some "123") = some 123 from by decide]
    simp

/-- Claim C5 witness: 111 and 123 are rejected even inside a wide band, and
an accepted price is never a sentinel. -/
theorem C5_amended_witness :
    ((5 : Int) ≠ 111 ∧ (5 : Int) ≠ 123) ∧
    card_accept 0 200 (cardWithPrice "111") = none ∧
    card_accept 0 200 (cardWithPrice "123") = none :=
  ⟨C5_amended_sentinels.1 0 10 (cardWithPrice "5") 5 (by decide),
   C5_amended_sentinels.2.1 0 200 (cardWithPrice "111") rfl,
   C5_amended_sentinels.2.2 0 200 (cardWithPrice "123") rfl⟩

/-- Claim C6 (code bug): `search` hardcodes `pages = 5` (main.py line 280)
and never reads `req.pages`, although the request model declares the field.
A request with `pages = 2` still drives the pipeline through all five pages
of the trace, yielding five records and echoing `pages = 5`. -/
theorem C6_pages_hardcoded :
    reqC6.pages = 2 ∧
    resultView (search reqC6 (fun _ => Except.error ()) traceC6)
      = some (6, 5, [10, 20, 30, 40, 50]) := by decide

/-- Claim C7 (confirmed): with both bounds explicit the resolver returns
exactly that band for EVERY model behaviour (the message is ignored); with
either bound absent it delegates the message, errors when the extractor
finds nothing, and otherwise returns `price ± margin`; and a request built
without `margin` carries the default 20. -/
theorem C7_resolver :
    (∀ (req : SearchRequest) (gemini : String → Except Unit String) (mn mx : Int),
       req.minprice = some mn → req.maxprice = some mx →
       resolve_band req gemini = Except.ok (mn, mx)) ∧
    (∀ (req : SearchRequest) (gemini : String → Except Unit String),
       (req.minprice = none ∨ req.maxprice = none) →
       extract_price_gemini (gemini req.message) = none →
       resolve_band req gemini = Except.error ()) ∧
    (∀ (req : SearchRequest) (gemini : String → Except Unit String) (p : Int),
       (req.minprice = none ∨ req.maxprice = none) →
       extract_price_gemini (gemini req.message) = some p →
       resolve_band req gemini = Except.ok (p - req.margin, p + req.margin)) ∧
    (∀ (m : String) (mn mx : Option Int), (mkRequest m mn mx).margin = 20) := by
  refine ⟨?_, ?_, ?_, ?_⟩
  · intro req gemini mn mx h1 h2
    simp [resolve_band, h1, h2]
  · intro req gemini hor hext
    rcases hor with h | h
    · cases hmx : req.maxprice <;>
        simp [resolve_band, h, hmx, resolve_from_message, hext]
    · cases hmn : req.minprice <;>
        simp [resolve_band, h, hmn, resolve_from_message, hext]
  · intro req gemini p hor hext
    rcases hor with h | h
    · cases hmx : req.maxprice <;>
        simp [resolve_band, h, hmx, resolve_from_message, hext]
    · cases hmn : req.minprice <;>
        simp [resolve_band, h, hmn, resolve_from_message, hext]
  · intro m mn mx
    rfl

/-- Claim C7 witness: an explicit band `{200, 400}` is returned unchanged
while the model would say 999; a message-only request with extracted price
300 and default margin 20 yields `{280, 320}`; an undecipherable message
fails. -/
theorem C7_resolver_witness :
    resolve_band { message := "ignored", minprice := some 200, maxprice := some 400 }
        (fun _ => Except.ok "999") = Except.ok (200, 400) ∧
    resolve_band (mkRequest "b 300" none none) (fun _ => Except.ok "300")
      = Except.ok (280, 320) ∧
    resolve_band (mkRequest "???" none none) (fun _ => Except.ok "NULL")
      = Except.error () :=
  ⟨C7_resolver.1 _ _ 200 400 rfl rfl,
   by
     have h := C7_resolver.2.2.1 (mkRequest "b 300" none none)
       (fun _ => Except.ok "300") 300 (Or.inl rfl) (by decide)
     rw [show (300 : Int) - (mkRequest "b 300" none none).margin = 280 from by decide,
         show (300 : Int) + (mkRequest "b 300" none none).margin = 320 from by decide] at h
     exact h,
   C7_resolver.2.1 (mkRequest "???" none none) _ (Or.inl rfl) (by decide)⟩

/-- Claim C8 (confirmed): the extractor is a total function of the model
outcome — an external error yields `None`; a response yields `None` exactly
when its stripped uppercase is the literal `NULL` token or it contains no
digit; otherwise the result is the first digit run of the response parsed as
an integer. -/
theorem C8_extractor_total :
    (extract_price_gemini (Except.error ()) = none) ∧
    (∀ t : String, extract_price_gemini (Except.ok t) = none ↔
       (pyUpper (pyStrip t) = "NULL" ∨ hasDigit t = false)) ∧
    (∀ (t : String) (ds : List Char),
       pyUpper (pyStrip t) ≠ "NULL" → firstDigitRunL t.data = some ds →
       extract_price_gemini (Except.ok t) = some (Int.ofNat (digitsValL ds))) := by
  refine ⟨rfl, ?_, ?_⟩
  · intro t
    simp only [extract_price_gemini]
    by_cases hnull : pyUpper (pyStrip t) = "NULL"
    · simp [hnull]
    · rw [if_neg hnull]
      have hstrip : firstDigitRunL (pyStrip t).data = firstDigitRunL t.data :=
        firstDigitRunL_stripL t.data
      rw [hstrip]
      cases hr : firstDigitRunL t.data with
      | none =>
        have hnod := (firstDigitRunL_eq_none_iff t.data).mp hr
        simp [hnull, hasDigit, hnod]
      | some ds =>
        have hdig : t.data.any Char.isDigit = true := by
          cases hany : t.data.any Char.isDigit
          · rw [(firstDigitRunL_eq_none_iff t.data).mpr hany] at hr
            cases hr
          · rfl
        simp [hnull, hasDigit, hdig]
  · intro t ds hnull hr
    simp only [extract_price_gemini]
    rw [if_neg hnull]
    have hstrip : firstDigitRunL (pyStrip t).data = firstDigitRunL t.data :=
      firstDigitRunL_stripL t.data
    rw [hstrip, hr]

/-- Claim C8 witness: a prose response containing `350` parses to 350; a
whitespace-padded lowercase `null` is the no-match token. -/
theorem C8_extractor_witness :
    extract_price_gemini (Except.ok "around 350 thousand or so 350") = some 350 ∧
    extract_price_gemini (Except.ok " null ") = none :=
  ⟨C8_extractor_total.2.2 "around 350 thousand or so 350" ['3', '5', '0']
      (by decide) (by decide),
   (C8_extractor_total.2.1 " null ").mpr (Or.inl (by decide))⟩

/-- Claim C9 (confirmed): every record a successful pipeline run emits has an
integer price `p` with `minprice ≤ p ≤ maxprice`, inclusive at both ends —
the price column is `List Int`, so no emitted record lacks a price. -/
theorem C9_band_invariant :
    ∀ (minp maxp : Int) (pages : Nat) (trace : List PageEvent) (d : ScrapeData),
      scrape_pages minp maxp pages trace emptyData = Except.ok d →
      ∀ p ∈ d.price, minp ≤ p ∧ p ≤ maxp := by
  intro minp maxp pages trace d hok
  exact scrape_preserves minp maxp (fun d => ∀ p ∈ d.price, minp ≤ p ∧ p ≤ maxp)
    (fun d c hd => append_card_band minp maxp d c hd) pages trace emptyData d
    (by simp [emptyData]) hok

/-- Claim C9 witness: a one-page run accepting price 5 under band `[0, 10]`
has its price inside the band. -/
theorem C9_band_witness : (0 : Int) ≤ 5 ∧ (5 : Int) ≤ 10 :=
  C9_band_invariant 0 10 1 [PageEvent.page [cardWithPrice "5"] NextCtl.enabled]
    (extract_cards 0 10 emptyData [cardWithPrice "5"]) rfl 5 (by decide)

/-- Claim C10 (confirmed): accepting a card appends exactly one element to
each of the six column lists, and every successful pipeline run starting
from the empty accumulator ends with all six lists of equal length. -/
theorem C10_parallel_lists :
    (∀ (minp maxp : Int) (d : ScrapeData) (c : Card),
       card_accept minp maxp c ≠ none →
       (append_card minp maxp d c).name.length = d.name.length + 1 ∧
       (append_card minp maxp d c).price.length = d.price.length + 1 ∧
       (append_card minp maxp d c).location.length = d.location.length + 1 ∧
       (append_card minp maxp d c).date.length = d.date.length + 1 ∧
       (append_card minp maxp d c).url.length = d.url.length + 1 ∧
       (append_card minp maxp d c).image.length = d.image.length + 1) ∧
    (∀ (minp maxp : Int) (pages : Nat) (trace : List PageEvent) (r : ScrapeData),
       scrape_pages minp maxp pages trace emptyData = Except.ok r → balanced r) := by
  constructor
  · intro minp maxp d c h
    exact append_card_lengths minp maxp d c h
  · intro minp maxp pages trace r hok
    exact scrape_preserves minp maxp balanced
      (fun d c hd => append_card_balanced minp maxp d c hd) pages trace emptyData r
      (by simp [balanced, emptyData]) hok

/-- Claim C10 witness: accepting a card grows the price column by one, and
the empty run is balanced. -/
theorem C10_parallel_witness :
    (append_card 0 10 emptyData (cardWithPrice "5")).price.length
      = emptyData.price.length + 1 ∧
    balanced emptyData :=
  ⟨(C10_parallel_lists.1 0 10 emptyData (cardWithPrice "5") (by decide)).2.1,
   C10_parallel_lists.2 0 10 0 [] emptyData rfl⟩

end Apicar
